import Mathlib

/-!
Verification of the slang compiler core (tokenizer, parser, code generator)
against its specification.  Each definition is a shallow embedding of the
corresponding C++ entity in `src/`:

  * `TokenType`, `Token`, `bin_prec`, `tokenizeFuel`  ←  src/tokenization.hpp
  * `ArenaAllocator`                                  ←  src/arena.hpp
  * `NodeTerm`, `NodeExpr`, `parse_term`, `parse_expr` ←  src/parser.hpp
  * `GenState`, `Generator.*`                         ←  src/generation.hpp

Machine integers (`size_t`) are modelled as `Nat`/`Int`; the generator's
stack-depth counter is modelled as `Int` so that the "never negative"
specification clause is statable (the C++ `size_t` would wrap instead of
going negative, and printed offsets would appear as their value mod 2^64).
C++ loops are modelled with explicit fuel where the recursion is not
structural; running out of fuel yields `none`/an error, so an `ok`/`some`
result certifies that the C++ loop terminates with the same answer.
-/

/-! ### ASCII character classes (std::isalpha etc. in the "C" locale) -/

/-- `std::isalpha` for ASCII: an upper- or lower-case letter. -/
def isAlphaChar (c : Char) : Bool :=
  (65 ≤ c.toNat && c.toNat ≤ 90) || (97 ≤ c.toNat && c.toNat ≤ 122)

/-- `std::isdigit` for ASCII. -/
def isDigitChar (c : Char) : Bool :=
  48 ≤ c.toNat && c.toNat ≤ 57

/-- `std::isalnum` for ASCII. -/
def isAlnumChar (c : Char) : Bool :=
  isAlphaChar c || isDigitChar c

/-- `std::isspace` for ASCII: space, tab, newline, vertical tab, form feed,
carriage return. -/
def isSpaceChar (c : Char) : Bool :=
  c.toNat == 32 || (9 ≤ c.toNat && c.toNat ≤ 13)

/-! ### Tokens (src/tokenization.hpp) -/

/-- The token-kind enumeration of `src/tokenization.hpp`.  `def` and `if`
are Lean keywords, so those constructors carry a trailing underscore
(the C++ enum already writes `if_`).  Note the enum ends at `if_`: it has
no members for `elif` or `else`, although `src/parser.hpp` refers to
`TokenType::elif` and `TokenType::else_`. -/
inductive TokenType where
  | exit
  | int_lit
  | semi
  | open_paren
  | close_paren
  | ident
  | def_
  | eq
  | plus
  | star
  | minus
  | fslash
  | open_curly
  | close_curly
  | if_
deriving DecidableEq, Repr

/-- A token: a kind plus an optional lexeme payload. -/
structure Token where
  type : TokenType
  value : Option String := none
deriving DecidableEq, Repr

/-- Binary-operator precedence table (`bin_prec` in src/tokenization.hpp). -/
def bin_prec : TokenType → Option Nat
  | TokenType.minus => some 0
  | TokenType.plus => some 0
  | TokenType.fslash => some 1
  | TokenType.star => some 1
  | _ => none

/-! ### Tokenizer (Tokenizer::tokenize in src/tokenization.hpp)

The C++ loop `while (peak().has_value())` is modelled with fuel.  One
iteration of the loop corresponds to one branch below.  The final `else`
branch of the C++ loop prints "Messed Up" to stderr and then re-enters the
loop WITHOUT consuming the offending character, so the embedding recurses
on the unchanged character list; only the fuel shrinks, and exhausting the
fuel (`none`) witnesses that the C++ loop never exits.  The brace tokens
compare against `Char.ofNat 123` / `Char.ofNat 125`, the code points of
the two curly-brace characters. -/

def tokenizeFuel : Nat → List Char → Option (List Token)
  | 0, _ => none
  | _ + 1, [] => some []
  | fuel + 1, c :: cs =>
    if isAlphaChar c then
      let buf := String.mk (c :: cs.takeWhile isAlnumChar)
      let rest := cs.dropWhile isAlnumChar
      let tok : Token :=
        if buf = "exit" then { type := TokenType.exit }
        else if buf = "def" then { type := TokenType.def_ }
        else if buf = "if" then { type := TokenType.if_ }
        else { type := TokenType.ident, value := some buf }
      (tokenizeFuel fuel rest).map (fun ts => tok :: ts)
    else if isDigitChar c then
      let buf := String.mk (c :: cs.takeWhile isDigitChar)
      (tokenizeFuel fuel (cs.dropWhile isDigitChar)).map
        (fun ts => { type := TokenType.int_lit, value := some buf } :: ts)
    else if c == '(' then
      (tokenizeFuel fuel cs).map (fun ts => { type := TokenType.open_paren } :: ts)
    else if c == ')' then
      (tokenizeFuel fuel cs).map (fun ts => { type := TokenType.close_paren } :: ts)
    else if c == ';' then
      (tokenizeFuel fuel cs).map (fun ts => { type := TokenType.semi } :: ts)
    else if c == '=' then
      (tokenizeFuel fuel cs).map (fun ts => { type := TokenType.eq } :: ts)
    else if c == '+' then
      (tokenizeFuel fuel cs).map (fun ts => { type := TokenType.plus } :: ts)
    else if c == '*' then
      (tokenizeFuel fuel cs).map (fun ts => { type := TokenType.star } :: ts)
    else if c == '-' then
      (tokenizeFuel fuel cs).map (fun ts => { type := TokenType.minus } :: ts)
    else if c == '/' then
      (tokenizeFuel fuel cs).map (fun ts => { type := TokenType.fslash } :: ts)
    else if c == Char.ofNat 123 then
      (tokenizeFuel fuel cs).map (fun ts => { type := TokenType.open_curly } :: ts)
    else if c == Char.ofNat 125 then
      (tokenizeFuel fuel cs).map (fun ts => { type := TokenType.close_curly } :: ts)
    else if isSpaceChar c then
      tokenizeFuel fuel cs
    else
      -- C++: std::cerr << "Messed Up"; no exit, no consume — the loop is stuck.
      tokenizeFuel fuel (c :: cs)

/-- `Tokenizer::tokenize` on a whole source string.  Every non-stuck loop
iteration consumes at least one character, so `length + 1` fuel suffices
whenever the C++ loop terminates. -/
def tokenize (s : String) : Option (List Token) :=
  tokenizeFuel (s.length + 1) s.data

/-- A character on which the tokenizer's dispatch falls through to the final
`else` branch: not alphanumeric, not one of the ten single-character token
characters, and not whitespace (the code points 123 and 125 are the two
curly braces). -/
def isStuckChar (c : Char) : Bool :=
  !(isAlphaChar c || isDigitChar c || c == '(' || c == ')' || c == ';' || c == '=' ||
    c == '+' || c == '*' || c == '-' || c == '/' ||
    c == Char.ofNat 123 || c == Char.ofNat 125 || isSpaceChar c)

/-! ### Arena allocator (src/arena.hpp)

`m_offset` models the byte distance `m_offset - m_buffer`; `alloc<T>` is
`alloc` applied to `sizeof(T)`.  The C++ `alloc` is exactly:
`void* offset = m_offset; m_offset += sizeof(T); return offset;` — it
contains no capacity check of any kind. -/

structure ArenaAllocator where
  m_size : Nat
  m_offset : Nat
deriving DecidableEq, Repr

/-- `ArenaAllocator::alloc` (src/arena.hpp, lines 11-16): return the current
offset and bump it by the requested size, unconditionally. -/
def ArenaAllocator.alloc (a : ArenaAllocator) (bytes : Nat) : Nat × ArenaAllocator :=
  (a.m_offset, { a with m_offset := a.m_offset + bytes })

/-- A sequence of `alloc` calls, returning the list of returned offsets and
the final arena state. -/
def ArenaAllocator.allocAll (a : ArenaAllocator) : List Nat → List Nat × ArenaAllocator
  | [] => ([], a)
  | sz :: rest =>
    let r := a.alloc sz
    let rs := r.2.allocAll rest
    (r.1 :: rs.1, rs.2)

/-! ### Parser AST (src/parser.hpp)

The C++ nodes are tagged unions of arena pointers; the embedding replaces
pointers by values, so the three expression node kinds become a mutual
inductive family mirroring `NodeTerm`, `NodeBinExpr`, `NodeExpr`. -/

mutual
inductive NodeTerm where
  | intLit (int_lit : Token)
  | ident (ident : Token)
  | paren (expr : NodeExpr)
deriving DecidableEq, Repr
inductive NodeBinExpr where
  | add (lhs rhs : NodeExpr)
  | mult (lhs rhs : NodeExpr)
  | sub (lhs rhs : NodeExpr)
  | div (lhs rhs : NodeExpr)
deriving DecidableEq, Repr
inductive NodeExpr where
  | term (t : NodeTerm)
  | bin (b : NodeBinExpr)
deriving DecidableEq, Repr
end

/-! Statement nodes (`NodeStmt`, `NodeScope`, `NodeStmtIf`, `NodeIfPred` of
src/parser.hpp).  `NodeScope` is represented by its statement list.  -/

mutual
inductive NodeIfPred where
  | elifPred (expr : NodeExpr) (scope : List NodeStmt) (pred : Option NodeIfPred)
  | elsePred (scope : List NodeStmt)
deriving Repr
inductive NodeStmt where
  | exit (expr : NodeExpr)
  | def_ (ident : Token) (expr : NodeExpr)
  | scope (stmts : List NodeStmt)
  | if_ (expr : NodeExpr) (scope : List NodeStmt) (pred : Option NodeIfPred)
deriving Repr
end

/-- Result of a parsing routine.  The C++ parser keeps a cursor `m_index`
into the token vector; here each routine returns the remaining tokens.
`noParse` models returning an empty `std::optional` (cursor unmoved);
`fatal` models `std::cerr << msg` followed by `exit(EXIT_FAILURE)`. -/
inductive PResult (α : Type) where
  | ok (val : α) (rest : List Token)
  | noParse (rest : List Token)
  | fatal (msg : String)
deriving DecidableEq, Repr

/-! ### Parser (Parser::parse_term / Parser::parse_expr, src/parser.hpp)

`parse_expr`'s `while (true)` precedence-climbing loop is `parse_expr_loop`;
the mutual recursion through parenthesised terms is not structural, so all
three routines carry fuel.  The unreachable trailing `else` of the operator
dispatch (C++ `assert(false)`) is a `fatal`. -/

mutual
def parse_term : Nat → List Token → PResult NodeTerm
  | 0, _ => PResult.fatal "out of fuel"
  | fuel + 1, toks =>
    match toks with
    | [] => PResult.noParse []
    | t :: rest =>
      if t.type = TokenType.int_lit then PResult.ok (NodeTerm.intLit t) rest
      else if t.type = TokenType.ident then PResult.ok (NodeTerm.ident t) rest
      else if t.type = TokenType.open_paren then
        match parse_expr fuel 0 rest with
        | PResult.ok e rest2 =>
          match rest2 with
          | t2 :: rest3 =>
            if t2.type = TokenType.close_paren then PResult.ok (NodeTerm.paren e) rest3
            else PResult.fatal "Expected `)`"
          | [] => PResult.fatal "Expected `)`"
        | PResult.noParse _ => PResult.fatal "Expected expression"
        | PResult.fatal m => PResult.fatal m
      else PResult.noParse toks
def parse_expr : Nat → Nat → List Token → PResult NodeExpr
  | 0, _, _ => PResult.fatal "out of fuel"
  | fuel + 1, min_prec, toks =>
    match parse_term fuel toks with
    | PResult.noParse r => PResult.noParse r
    | PResult.fatal m => PResult.fatal m
    | PResult.ok t rest => parse_expr_loop fuel min_prec (NodeExpr.term t) rest
def parse_expr_loop : Nat → Nat → NodeExpr → List Token → PResult NodeExpr
  | 0, _, _, _ => PResult.fatal "out of fuel"
  | fuel + 1, min_prec, lhs, toks =>
    match toks with
    | [] => PResult.ok lhs []
    | op :: rest =>
      match bin_prec op.type with
      | none => PResult.ok lhs (op :: rest)
      | some p =>
        if p < min_prec then PResult.ok lhs (op :: rest)
        else
          match parse_expr fuel (p + 1) rest with
          | PResult.noParse _ => PResult.fatal "Unable to parse expression"
          | PResult.fatal m => PResult.fatal m
          | PResult.ok rhs rest2 =>
            if op.type = TokenType.plus then
              parse_expr_loop fuel min_prec (NodeExpr.bin (NodeBinExpr.add lhs rhs)) rest2
            else if op.type = TokenType.star then
              parse_expr_loop fuel min_prec (NodeExpr.bin (NodeBinExpr.mult lhs rhs)) rest2
            else if op.type = TokenType.minus then
              parse_expr_loop fuel min_prec (NodeExpr.bin (NodeBinExpr.sub lhs rhs)) rest2
            else if op.type = TokenType.fslash then
              parse_expr_loop fuel min_prec (NodeExpr.bin (NodeBinExpr.div lhs rhs)) rest2
            else PResult.fatal "assertion failed"
end

/-! ### Code generator (src/generation.hpp)

`GenState` is the mutable state of class `Generator`: the output buffer
(kept as the list of appended chunks, in emission order), the logical
stack-depth counter `m_stack_loc`, the variable table `m_vars` (in
declaration order; `push_back` appends at the end), and the scope-boundary
stack `m_scopes` (the C++ vector's back, i.e. the innermost boundary, is
the head of the list here).  `m_stack_loc` and `Var.stack_loc` are `size_t`
in C++; they are modelled as exact integers. -/

structure Var where
  name : String
  stack_loc : Int
deriving DecidableEq, Repr

structure GenState where
  m_output : List String
  m_stack_loc : Int
  m_vars : List Var
  m_scopes : List Nat
deriving DecidableEq, Repr

namespace Generator

/-- `m_output << text`. -/
def emit (s : GenState) (text : String) : GenState :=
  { s with m_output := s.m_output ++ [text] }

/-- `Generator::push`: write a `push` line and increment the stack-depth
counter. -/
def push (s : GenState) (reg : String) : GenState :=
  { s with m_output := s.m_output ++ ["    push " ++ reg ++ "\n"],
           m_stack_loc := s.m_stack_loc + 1 }

/-- `Generator::pop`: write a `pop` line and decrement the stack-depth
counter. -/
def pop (s : GenState) (reg : String) : GenState :=
  { s with m_output := s.m_output ++ ["    pop " ++ reg ++ "\n"],
           m_stack_loc := s.m_stack_loc - 1 }

/-- `Generator::begin_scope`: record the current variable-table size. -/
def begin_scope (s : GenState) : GenState :=
  { s with m_scopes := s.m_vars.length :: s.m_scopes }

/-- `Generator::end_scope`: `pop_count = m_vars.size() - m_scopes.back()`;
emit `add rsp, pop_count*8`, lower the counter, pop `pop_count` variables
(`m_vars.take` models the `pop_back` loop) and drop the boundary.  The C++
calls `m_scopes.back()` unconditionally, which is undefined on an empty
vector; `end_scope` is only ever called right after a `begin_scope`, so the
empty case below is unreachable and returns the state unchanged. -/
def end_scope (s : GenState) : GenState :=
  match s.m_scopes with
  | [] => s
  | b :: rest =>
    let pop_count := s.m_vars.length - b
    { s with
      m_output := s.m_output ++ ["    add rsp, " ++ toString (pop_count * 8) ++ "\n"],
      m_stack_loc := s.m_stack_loc - (pop_count : Int),
      m_vars := s.m_vars.take (s.m_vars.length - pop_count),
      m_scopes := rest }

/-! The three expression visitors (`gen_term`, `gen_bin_expr`, `gen_expr`).
`std::optional::value()` on an empty optional aborts; that is the
`bad optional access` error below (never reached on parser-produced
trees). -/

mutual
def gen_term (s : GenState) : NodeTerm → Except String GenState
  | NodeTerm.intLit tok =>
    match tok.value with
    | none => Except.error "bad optional access"
    | some v => Except.ok (push (emit s ("    mov rax, " ++ v ++ "\n")) "rax")
  | NodeTerm.ident tok =>
    match tok.value with
    | none => Except.error "bad optional access"
    | some v =>
      match s.m_vars.find? (fun var => var.name == v) with
      | none => Except.error ("Undeclared identifier: " ++ v)
      | some var =>
        Except.ok (push s
          ("QWORD [rsp + " ++ toString ((s.m_stack_loc - var.stack_loc - 1) * 8) ++ "]\n"))
  | NodeTerm.paren e => gen_expr s e
def gen_bin_expr (s : GenState) : NodeBinExpr → Except String GenState
  | NodeBinExpr.sub l r => do
    let s1 ← gen_expr s r
    let s2 ← gen_expr s1 l
    Except.ok (push (emit (pop (pop s2 "rax") "rbx") "    sub rax, rbx\n") "rax")
  | NodeBinExpr.div l r => do
    let s1 ← gen_expr s r
    let s2 ← gen_expr s1 l
    Except.ok (push (emit (pop (pop s2 "rax") "rbx") "    div rbx\n") "rax")
  | NodeBinExpr.add l r => do
    let s1 ← gen_expr s r
    let s2 ← gen_expr s1 l
    Except.ok (push (emit (pop (pop s2 "rax") "rbx") "    add rax, rbx\n") "rax")
  | NodeBinExpr.mult l r => do
    let s1 ← gen_expr s r
    let s2 ← gen_expr s1 l
    Except.ok (push (emit (pop (pop s2 "rax") "rbx") "    mul rbx\n") "rax")
def gen_expr (s : GenState) : NodeExpr → Except String GenState
  | NodeExpr.term t => gen_term s t
  | NodeExpr.bin b => gen_bin_expr s b
end

/-! `gen_stmt` (the `StmtVisitor`) and the statement loops of `gen_prog`
and the scope visitor (`gen_stmts`).  The `NodeStmtIf` visitor is
`assert(false && "Not Implemented")`. -/

mutual
def gen_stmt (s : GenState) : NodeStmt → Except String GenState
  | NodeStmt.exit e => do
    let s1 ← gen_expr s e
    Except.ok (emit (pop (emit s1 "    mov rax, 60\n") "rdi") "    syscall\n")
  | NodeStmt.def_ tok e =>
    match tok.value with
    | none => Except.error "bad optional access"
    | some v =>
      match s.m_vars.find? (fun var => var.name == v) with
      | some _ => Except.error ("Identifier already used: " ++ v)
      | none =>
        gen_expr
          { s with m_vars := s.m_vars ++ [{ name := v, stack_loc := s.m_stack_loc }] } e
  | NodeStmt.scope stmts => do
    let s1 ← gen_stmts (begin_scope s) stmts
    Except.ok (end_scope s1)
  | NodeStmt.if_ _ _ _ => Except.error "Not Implemented"
def gen_stmts (s : GenState) : List NodeStmt → Except String GenState
  | [] => Except.ok s
  | st :: rest => do
    let s1 ← gen_stmt s st
    gen_stmts s1 rest
end

/-- Fresh generator state: empty output, zero depth, empty tables
(the member initialisers of class `Generator`). -/
def initState : GenState :=
  { m_output := [], m_stack_loc := 0, m_vars := [], m_scopes := [] }

/-- `Generator::gen_prog`: header, all statements, implicit `exit(0)`
trailer. -/
def gen_prog (prog : List NodeStmt) : Except String GenState := do
  let s1 ← gen_stmts (emit initState "global _start\n_start:\n") prog
  Except.ok (emit (emit (emit s1 "    mov rax, 60\n") "    mov rdi, 0\n") "    syscall")

end Generator

/-! ### Helper lemmas -/

/-- Inversion for a successful `Except` bind. -/
theorem except_bind_ok {α β : Type} {x : Except String α} {f : α → Except String β} {b : β}
    (h : x >>= f = Except.ok b) : ∃ a, x = Except.ok a ∧ f a = Except.ok b := by
  have h2 : Except.bind x f = Except.ok b := h
  cases x with
  | error m => simp [Except.bind] at h2
  | ok a => exact ⟨a, rfl, by simpa [Except.bind] using h2⟩

/-- Forward computation through a successful `Except` bind. -/
theorem except_ok_bind {α β : Type} (a : α) (f : α → Except String β) :
    (Except.ok a >>= f) = f a := rfl

namespace Generator

/-! Effect of lowering an expression on the non-output state: the variable
table and scope stack are untouched and the stack-depth counter grows by
exactly one; the output buffer is only appended to. -/

mutual
theorem gen_term_frame (s : GenState) (t : NodeTerm) (s2 : GenState)
    (h : gen_term s t = Except.ok s2) :
    s2.m_vars = s.m_vars ∧ s2.m_scopes = s.m_scopes ∧
      s2.m_stack_loc = s.m_stack_loc + 1 ∧ ∃ d, s2.m_output = s.m_output ++ d := by
  cases t with
  | intLit tok =>
    cases hv : tok.value with
    | none => simp [gen_term, hv] at h
    | some v =>
      simp only [gen_term, hv, Except.ok.injEq] at h
      subst h
      refine ⟨rfl, rfl, rfl, ⟨["    mov rax, " ++ v ++ "\n", "    push rax\n"], ?_⟩⟩
      simp [push, emit]
  | ident tok =>
    cases hv : tok.value with
    | none => simp [gen_term, hv] at h
    | some v =>
      simp only [gen_term, hv] at h
      cases hf : List.find? (fun var => var.name == v) s.m_vars with
      | none => rw [hf] at h; simp at h
      | some var =>
        rw [hf] at h
        simp only [Except.ok.injEq] at h
        subst h
        exact ⟨rfl, rfl, rfl,
          ⟨["    push " ++ ("QWORD [rsp + " ++ toString ((s.m_stack_loc - var.stack_loc - 1) * 8) ++ "]\n") ++ "\n"],
            by simp [push]⟩⟩
  | paren e => exact gen_expr_frame s e s2 h
theorem gen_bin_expr_frame (s : GenState) (b : NodeBinExpr) (s2 : GenState)
    (h : gen_bin_expr s b = Except.ok s2) :
    s2.m_vars = s.m_vars ∧ s2.m_scopes = s.m_scopes ∧
      s2.m_stack_loc = s.m_stack_loc + 1 ∧ ∃ d, s2.m_output = s.m_output ++ d := by
  cases b with
  | sub l r =>
    simp only [gen_bin_expr] at h
    obtain ⟨sr, hr, h⟩ := except_bind_ok h
    obtain ⟨sl, hl, h⟩ := except_bind_ok h
    simp only [Except.ok.injEq] at h
    subst h
    obtain ⟨hv1, hs1, hd1, d1, ho1⟩ := gen_expr_frame s r sr hr
    obtain ⟨hv2, hs2, hd2, d2, ho2⟩ := gen_expr_frame sr l sl hl
    refine ⟨by simp [push, emit, pop, hv1, hv2], by simp [push, emit, pop, hs1, hs2],
      by simp [push, emit, pop]; omega,
      ⟨d1 ++ d2 ++ ["    pop rax\n", "    pop rbx\n", "    sub rax, rbx\n", "    push rax\n"], ?_⟩⟩
    simp [push, emit, pop, ho1, ho2]
  | div l r =>
    simp only [gen_bin_expr] at h
    obtain ⟨sr, hr, h⟩ := except_bind_ok h
    obtain ⟨sl, hl, h⟩ := except_bind_ok h
    simp only [Except.ok.injEq] at h
    subst h
    obtain ⟨hv1, hs1, hd1, d1, ho1⟩ := gen_expr_frame s r sr hr
    obtain ⟨hv2, hs2, hd2, d2, ho2⟩ := gen_expr_frame sr l sl hl
    refine ⟨by simp [push, emit, pop, hv1, hv2], by simp [push, emit, pop, hs1, hs2],
      by simp [push, emit, pop]; omega,
      ⟨d1 ++ d2 ++ ["    pop rax\n", "    pop rbx\n", "    div rbx\n", "    push rax\n"], ?_⟩⟩
    simp [push, emit, pop, ho1, ho2]
  | add l r =>
    simp only [gen_bin_expr] at h
    obtain ⟨sr, hr, h⟩ := except_bind_ok h
    obtain ⟨sl, hl, h⟩ := except_bind_ok h
    simp only [Except.ok.injEq] at h
    subst h
    obtain ⟨hv1, hs1, hd1, d1, ho1⟩ := gen_expr_frame s r sr hr
    obtain ⟨hv2, hs2, hd2, d2, ho2⟩ := gen_expr_frame sr l sl hl
    refine ⟨by simp [push, emit, pop, hv1, hv2], by simp [push, emit, pop, hs1, hs2],
      by simp [push, emit, pop]; omega,
      ⟨d1 ++ d2 ++ ["    pop rax\n", "    pop rbx\n", "    add rax, rbx\n", "    push rax\n"], ?_⟩⟩
    simp [push, emit, pop, ho1, ho2]
  | mult l r =>
    simp only [gen_bin_expr] at h
    obtain ⟨sr, hr, h⟩ := except_bind_ok h
    obtain ⟨sl, hl, h⟩ := except_bind_ok h
    simp only [Except.ok.injEq] at h
    subst h
    obtain ⟨hv1, hs1, hd1, d1, ho1⟩ := gen_expr_frame s r sr hr
    obtain ⟨hv2, hs2, hd2, d2, ho2⟩ := gen_expr_frame sr l sl hl
    refine ⟨by simp [push, emit, pop, hv1, hv2], by simp [push, emit, pop, hs1, hs2],
      by simp [push, emit, pop]; omega,
      ⟨d1 ++ d2 ++ ["    pop rax\n", "    pop rbx\n", "    mul rbx\n", "    push rax\n"], ?_⟩⟩
    simp [push, emit, pop, ho1, ho2]
theorem gen_expr_frame (s : GenState) (e : NodeExpr) (s2 : GenState)
    (h : gen_expr s e = Except.ok s2) :
    s2.m_vars = s.m_vars ∧ s2.m_scopes = s.m_scopes ∧
      s2.m_stack_loc = s.m_stack_loc + 1 ∧ ∃ d, s2.m_output = s.m_output ++ d := by
  cases e with
  | term t => exact gen_term_frame s t s2 h
  | bin b => exact gen_bin_expr_frame s b s2 h
end

end Generator

namespace Generator

/-- Unfolding of `end_scope` when the boundary stack is non-empty. -/
theorem end_scope_eq (s : GenState) (b : Nat) (rest : List Nat)
    (h : s.m_scopes = b :: rest) :
    end_scope s =
      { m_output := s.m_output ++ ["    add rsp, " ++ toString ((s.m_vars.length - b) * 8) ++ "\n"],
        m_stack_loc := s.m_stack_loc - ((s.m_vars.length - b : Nat) : Int),
        m_vars := s.m_vars.take (s.m_vars.length - (s.m_vars.length - b)),
        m_scopes := rest } := by
  simp only [end_scope, h]

/-! Frame property of statement lowering: if the stack-depth counter matches
the live-variable count before a statement, it does so after as well; the
scope-boundary stack is restored; and the variable table is only ever
extended (never rewritten below its old length). -/

mutual
theorem gen_stmt_frame (s : GenState) (st : NodeStmt) (s2 : GenState)
    (h : gen_stmt s st = Except.ok s2)
    (hinv : s.m_stack_loc = (s.m_vars.length : Int)) :
    s2.m_stack_loc = (s2.m_vars.length : Int) ∧ s2.m_scopes = s.m_scopes ∧
      ∃ d, s2.m_vars = s.m_vars ++ d := by
  cases st with
  | exit e =>
    simp only [gen_stmt] at h
    obtain ⟨s1, he, h⟩ := except_bind_ok h
    simp only [Except.ok.injEq] at h
    subst h
    obtain ⟨hv1, hs1, hd1, _⟩ := gen_expr_frame s e s1 he
    refine ⟨?_, ?_, ⟨[], ?_⟩⟩
    · simp [emit, pop, hv1, hd1, hinv]
    · simp [emit, pop, hs1]
    · simp [emit, pop, hv1]
  | def_ tok e =>
    cases hv : tok.value with
    | none => simp [gen_stmt, hv] at h
    | some v =>
      simp only [gen_stmt, hv] at h
      cases hf : List.find? (fun var => var.name == v) s.m_vars with
      | some var => rw [hf] at h; simp at h
      | none =>
        rw [hf] at h
        obtain ⟨hv1, hs1, hd1, _⟩ :=
          gen_expr_frame { s with m_vars := s.m_vars ++ [{ name := v, stack_loc := s.m_stack_loc }] } e s2 h
        refine ⟨?_, by simpa using hs1, ⟨[{ name := v, stack_loc := s.m_stack_loc }], by simpa using hv1⟩⟩
        rw [hv1, hd1]
        simp only [List.length_append, List.length_cons, List.length_nil]
        rw [hinv]
        push_cast
        ring
  | scope stmts =>
    simp only [gen_stmt] at h
    obtain ⟨s1, hs1, h⟩ := except_bind_ok h
    simp only [Except.ok.injEq] at h
    subst h
    have hinv2 : (begin_scope s).m_stack_loc = ((begin_scope s).m_vars.length : Int) := by
      simpa [begin_scope] using hinv
    obtain ⟨hd1, hsc1, d, hvars1⟩ := gen_stmts_frame (begin_scope s) stmts s1 hs1 hinv2
    have hscopes : s1.m_scopes = s.m_vars.length :: s.m_scopes := by
      simpa [begin_scope] using hsc1
    have hvars : s1.m_vars = s.m_vars ++ d := by simpa [begin_scope] using hvars1
    rw [end_scope_eq s1 (s.m_vars.length) s.m_scopes hscopes]
    have hlen : s1.m_vars.length = s.m_vars.length + d.length := by simp [hvars]
    have htake : s1.m_vars.length - (s1.m_vars.length - s.m_vars.length) = s.m_vars.length := by
      omega
    have hfinalvars :
        s1.m_vars.take (s1.m_vars.length - (s1.m_vars.length - s.m_vars.length)) = s.m_vars := by
      rw [htake, hvars, List.take_left]
    refine ⟨?_, rfl, ⟨[], ?_⟩⟩
    · dsimp only
      rw [hfinalvars, hd1, hlen]
      omega
    · dsimp only
      rw [hfinalvars, List.append_nil]
  | if_ e sc p => simp [gen_stmt] at h
theorem gen_stmts_frame (s : GenState) (l : List NodeStmt) (s2 : GenState)
    (h : gen_stmts s l = Except.ok s2)
    (hinv : s.m_stack_loc = (s.m_vars.length : Int)) :
    s2.m_stack_loc = (s2.m_vars.length : Int) ∧ s2.m_scopes = s.m_scopes ∧
      ∃ d, s2.m_vars = s.m_vars ++ d := by
  cases l with
  | nil =>
    simp only [gen_stmts, Except.ok.injEq] at h
    subst h
    exact ⟨hinv, rfl, ⟨[], by simp⟩⟩
  | cons st rest =>
    simp only [gen_stmts] at h
    obtain ⟨s1, h1, h⟩ := except_bind_ok h
    obtain ⟨hd1, hsc1, d1, hv1⟩ := gen_stmt_frame s st s1 h1 hinv
    obtain ⟨hd2, hsc2, d2, hv2⟩ := gen_stmts_frame s1 rest s2 h hd1
    exact ⟨hd2, hsc2.trans hsc1, ⟨d1 ++ d2, by rw [hv2, hv1, List.append_assoc]⟩⟩
end

end Generator

/-! ### Claims about the tokenizer and the arena -/

/-- Membership survives `dropWhile` when the predicate rejects the element. -/
theorem mem_dropWhile_of_neg {α : Type} (p : α → Bool) (c : α) (l : List α)
    (hc : p c = false) (hm : c ∈ l) : c ∈ l.dropWhile p := by
  induction l with
  | nil => cases hm
  | cons a l ih =>
    rw [List.dropWhile_cons]
    by_cases ha : p a = true
    · simp only [ha, if_true]
      rcases List.mem_cons.mp hm with hca | hcl
      · subst hca; rw [hc] at ha; cases ha
      · exact ih hcl
    · simp only [Bool.not_eq_true] at ha
      simp [ha, hm]

/-- C1 (evidence for the code bug): the tokenizer recognises exactly the
keywords `exit`, `def`, `if`; the identifier-shaped lexemes `elif` and
`else` are emitted as `Ident` tokens carrying their lexeme, not as keyword
tokens — indeed `TokenType` has no `elif`/`else` members at all, even
though `src/parser.hpp` matches on `TokenType::elif` and
`TokenType::else_`. -/
theorem tokenize_keyword_set :
    tokenize "exit" = some [{ type := TokenType.exit }] ∧
    tokenize "def" = some [{ type := TokenType.def_ }] ∧
    tokenize "if" = some [{ type := TokenType.if_ }] ∧
    tokenize "elif" = some [{ type := TokenType.ident, value := some "elif" }] ∧
    tokenize "else" = some [{ type := TokenType.ident, value := some "else" }] := by
  refine ⟨?_, ?_, ?_, ?_, ?_⟩ <;> decide

/-- C2 (evidence for the code bug): on any input containing a character
that no tokenizer branch accepts, the scan loop never terminates — the
final `else` branch prints `Messed Up` without consuming the character and
without exiting, so no amount of fuel makes `tokenizeFuel` return.  In
particular the claimed fatal-error termination does not happen. -/
theorem tokenize_stuck_on_bad_char (cs : List Char) (c : Char)
    (hm : c ∈ cs) (hb : isStuckChar c = true) :
    ∀ fuel, tokenizeFuel fuel cs = none := by
  have hb2 := hb
  simp only [isStuckChar, Bool.not_eq_true', Bool.or_eq_false_iff] at hb2
  obtain ⟨⟨⟨⟨⟨⟨⟨⟨⟨⟨⟨⟨halpha, hdigit⟩, hop⟩, hcp⟩, hsemi⟩, heqs⟩, hplus⟩,
    hstar⟩, hminus⟩, hslash⟩, hoc⟩, hcc⟩, hspace⟩ := hb2
  have halnum : isAlnumChar c = false := by
    simp only [isAlnumChar, halpha, hdigit, Bool.or_self]
  intro fuel
  induction fuel generalizing cs with
  | zero => rfl
  | succ fuel ih =>
    cases cs with
    | nil => cases hm
    | cons a rest =>
      have hmem : ∀ (cond : Char → Bool), cond a = true → cond c = false → c ∈ rest := by
        intro cond hca hcc2
        rcases List.mem_cons.mp hm with hceq | hcl
        · subst hceq; rw [hca] at hcc2; cases hcc2
        · exact hcl
      rw [tokenizeFuel]
      by_cases h1 : isAlphaChar a = true
      · rw [if_pos h1]
        dsimp only
        rw [ih (rest.dropWhile isAlnumChar)
          (mem_dropWhile_of_neg _ _ _ halnum (hmem isAlphaChar h1 halpha))]
        rfl
      by_cases h2 : isDigitChar a = true
      · rw [if_neg h1, if_pos h2]
        dsimp only
        rw [ih (rest.dropWhile isDigitChar)
          (mem_dropWhile_of_neg _ _ _ hdigit (hmem isDigitChar h2 hdigit))]
        rfl
      by_cases h3 : (a == '(') = true
      · rw [if_neg h1, if_neg h2, if_pos h3]
        rw [ih rest (hmem (fun x => x == '(') h3 hop)]
        rfl
      by_cases h4 : (a == ')') = true
      · rw [if_neg h1, if_neg h2, if_neg h3, if_pos h4]
        rw [ih rest (hmem (fun x => x == ')') h4 hcp)]
        rfl
      by_cases h5 : (a == ';') = true
      · rw [if_neg h1, if_neg h2, if_neg h3, if_neg h4, if_pos h5]
        rw [ih rest (hmem (fun x => x == ';') h5 hsemi)]
        rfl
      by_cases h6 : (a == '=') = true
      · rw [if_neg h1, if_neg h2, if_neg h3, if_neg h4, if_neg h5, if_pos h6]
        rw [ih rest (hmem (fun x => x == '=') h6 heqs)]
        rfl
      by_cases h7 : (a == '+') = true
      · rw [if_neg h1, if_neg h2, if_neg h3, if_neg h4, if_neg h5, if_neg h6, if_pos h7]
        rw [ih rest (hmem (fun x => x == '+') h7 hplus)]
        rfl
      by_cases h8 : (a == '*') = true
      · rw [if_neg h1, if_neg h2, if_neg h3, if_neg h4, if_neg h5, if_neg h6, if_neg h7,
          if_pos h8]
        rw [ih rest (hmem (fun x => x == '*') h8 hstar)]
        rfl
      by_cases h9 : (a == '-') = true
      · rw [if_neg h1, if_neg h2, if_neg h3, if_neg h4, if_neg h5, if_neg h6, if_neg h7,
          if_neg h8, if_pos h9]
        rw [ih rest (hmem (fun x => x == '-') h9 hminus)]
        rfl
      by_cases h10 : (a == '/') = true
      · rw [if_neg h1, if_neg h2, if_neg h3, if_neg h4, if_neg h5, if_neg h6, if_neg h7,
          if_neg h8, if_neg h9, if_pos h10]
        rw [ih rest (hmem (fun x => x == '/') h10 hslash)]
        rfl
      by_cases h11 : (a == Char.ofNat 123) = true
      · rw [if_neg h1, if_neg h2, if_neg h3, if_neg h4, if_neg h5, if_neg h6, if_neg h7,
          if_neg h8, if_neg h9, if_neg h10, if_pos h11]
        rw [ih rest (hmem (fun x => x == Char.ofNat 123) h11 hoc)]
        rfl
      by_cases h12 : (a == Char.ofNat 125) = true
      · rw [if_neg h1, if_neg h2, if_neg h3, if_neg h4, if_neg h5, if_neg h6, if_neg h7,
          if_neg h8, if_neg h9, if_neg h10, if_neg h11, if_pos h12]
        rw [ih rest (hmem (fun x => x == Char.ofNat 125) h12 hcc)]
        rfl
      by_cases h13 : isSpaceChar a = true
      · rw [if_neg h1, if_neg h2, if_neg h3, if_neg h4, if_neg h5, if_neg h6, if_neg h7,
          if_neg h8, if_neg h9, if_neg h10, if_neg h11, if_neg h12, if_pos h13]
        exact ih rest (hmem isSpaceChar h13 hspace)
      · rw [if_neg h1, if_neg h2, if_neg h3, if_neg h4, if_neg h5, if_neg h6, if_neg h7,
          if_neg h8, if_neg h9, if_neg h10, if_neg h11, if_neg h12, if_neg h13]
        exact ih (a :: rest) hm

/-- Witness for `tokenize_stuck_on_bad_char`: the single-character
input `@` never tokenizes, whatever the fuel supplied. -/
theorem tokenize_stuck_on_bad_char_witness :
    tokenizeFuel 40 ['@'] = none :=
  tokenize_stuck_on_bad_char ['@'] '@' (by simp) (by decide) 40

/-- C4 (counterexample): a 4 MiB arena, asked first for 4 MiB and then for
8 more bytes, hands out the second region at offset 4194304 — past the end
of its buffer — and signals no error whatsoever. -/
theorem arena_overflow_unreported :
    (ArenaAllocator.allocAll { m_size := 4194304, m_offset := 0 } [4194304, 8]).1 =
      [0, 4194304] ∧
    (ArenaAllocator.allocAll { m_size := 4194304, m_offset := 0 } [4194304, 8]).2.m_offset =
      4194312 ∧
    4194304 + 8 > 4194304 := by
  refine ⟨by decide, by decide, by decide⟩

/-- C4 (amended): `alloc` performs no capacity check at all — a sequence of
requests always succeeds, the k-th returned reference is the running sum of
the previous request sizes, and the final offset is the total size, whether
or not it exceeds `m_size`. -/
theorem arena_alloc_unchecked (a : ArenaAllocator) (szs : List Nat) :
    (a.allocAll szs).2 = { m_size := a.m_size, m_offset := a.m_offset + szs.sum } ∧
    (a.allocAll szs).1 =
      (List.range szs.length).map (fun k => a.m_offset + (szs.take k).sum) := by
  induction szs generalizing a with
  | nil => simp [ArenaAllocator.allocAll]
  | cons sz rest ih =>
    obtain ⟨ih1, ih2⟩ := ih { m_size := a.m_size, m_offset := a.m_offset + sz }
    constructor
    · simp only [ArenaAllocator.allocAll, ArenaAllocator.alloc, ih1, List.sum_cons]
      congr 1
      omega
    · simp only [ArenaAllocator.allocAll, ArenaAllocator.alloc, ih2,
        List.length_cons, List.range_succ_eq_map, List.map_cons, List.map_map,
        List.take_zero, List.sum_nil, Nat.add_zero, List.take_succ_cons, List.sum_cons]
      congr 1
      apply List.map_congr_left
      intro k _
      simp only [Function.comp_apply, List.take_succ_cons, List.sum_cons]
      omega

/-! ### Claim about expression parsing (precedence and associativity) -/

/-- C3: the four precedence/associativity laws of the spec, for arbitrary
integer-literal leaf tokens `a`, `b`, `c` (the parser never inspects the
literal payloads, which are universally quantified here).  The parenthesised
law exhibits the `Paren` term node through which the reset of the precedence
level happens. -/
theorem parse_expr_precedence_laws (va vb vc : Option String) :
    parse_expr 32 0 [{ type := TokenType.int_lit, value := va },
        { type := TokenType.plus }, { type := TokenType.int_lit, value := vb },
        { type := TokenType.star }, { type := TokenType.int_lit, value := vc }] =
      PResult.ok (NodeExpr.bin (NodeBinExpr.add
        (NodeExpr.term (NodeTerm.intLit { type := TokenType.int_lit, value := va }))
        (NodeExpr.bin (NodeBinExpr.mult
          (NodeExpr.term (NodeTerm.intLit { type := TokenType.int_lit, value := vb }))
          (NodeExpr.term (NodeTerm.intLit { type := TokenType.int_lit, value := vc })))))) [] ∧
    parse_expr 32 0 [{ type := TokenType.int_lit, value := va },
        { type := TokenType.minus }, { type := TokenType.int_lit, value := vb },
        { type := TokenType.minus }, { type := TokenType.int_lit, value := vc }] =
      PResult.ok (NodeExpr.bin (NodeBinExpr.sub
        (NodeExpr.bin (NodeBinExpr.sub
          (NodeExpr.term (NodeTerm.intLit { type := TokenType.int_lit, value := va }))
          (NodeExpr.term (NodeTerm.intLit { type := TokenType.int_lit, value := vb }))))
        (NodeExpr.term (NodeTerm.intLit { type := TokenType.int_lit, value := vc })))) [] ∧
    parse_expr 32 0 [{ type := TokenType.int_lit, value := va },
        { type := TokenType.fslash }, { type := TokenType.int_lit, value := vb },
        { type := TokenType.star }, { type := TokenType.int_lit, value := vc }] =
      PResult.ok (NodeExpr.bin (NodeBinExpr.mult
        (NodeExpr.bin (NodeBinExpr.div
          (NodeExpr.term (NodeTerm.intLit { type := TokenType.int_lit, value := va }))
          (NodeExpr.term (NodeTerm.intLit { type := TokenType.int_lit, value := vb }))))
        (NodeExpr.term (NodeTerm.intLit { type := TokenType.int_lit, value := vc })))) [] ∧
    parse_expr 32 0 [{ type := TokenType.open_paren },
        { type := TokenType.int_lit, value := va },
        { type := TokenType.plus }, { type := TokenType.int_lit, value := vb },
        { type := TokenType.close_paren },
        { type := TokenType.star }, { type := TokenType.int_lit, value := vc }] =
      PResult.ok (NodeExpr.bin (NodeBinExpr.mult
        (NodeExpr.term (NodeTerm.paren (NodeExpr.bin (NodeBinExpr.add
          (NodeExpr.term (NodeTerm.intLit { type := TokenType.int_lit, value := va }))
          (NodeExpr.term (NodeTerm.intLit { type := TokenType.int_lit, value := vb }))))))
        (NodeExpr.term (NodeTerm.intLit { type := TokenType.int_lit, value := vc })))) [] :=
  ⟨rfl, rfl, rfl, rfl⟩

/-! ### Claims about the code generator -/

namespace Generator

/-- The fixed instruction tail a binary-expression visitor appends after
both operands have been lowered. -/
theorem bin_tail_eq (s2 : GenState) (instr : String) :
    push (emit (pop (pop s2 "rax") "rbx") instr) "rax" =
      { m_output := s2.m_output ++
          ["    pop rax\n", "    pop rbx\n", instr, "    push rax\n"],
        m_stack_loc := s2.m_stack_loc - 1,
        m_vars := s2.m_vars,
        m_scopes := s2.m_scopes } := by
  simp only [push, emit, pop]
  rw [GenState.mk.injEq]
  refine ⟨by simp, by omega, rfl, rfl⟩

/-- C5: for every binary node the generator first lowers the right operand,
then the left operand, then emits `pop rax`, `pop rbx`, the operator
instruction, `push rax` — so the value of the left operand, pushed last,
is popped into `rax` (the destination of `sub`/`div`). -/
theorem gen_bin_expr_emission_order (s sb sa : GenState) (a b : NodeExpr)
    (hb : gen_expr s b = Except.ok sb) (ha : gen_expr sb a = Except.ok sa) :
    gen_bin_expr s (NodeBinExpr.add a b) = Except.ok
      { m_output := sa.m_output ++
          ["    pop rax\n", "    pop rbx\n", "    add rax, rbx\n", "    push rax\n"],
        m_stack_loc := sa.m_stack_loc - 1,
        m_vars := sa.m_vars, m_scopes := sa.m_scopes } ∧
    gen_bin_expr s (NodeBinExpr.sub a b) = Except.ok
      { m_output := sa.m_output ++
          ["    pop rax\n", "    pop rbx\n", "    sub rax, rbx\n", "    push rax\n"],
        m_stack_loc := sa.m_stack_loc - 1,
        m_vars := sa.m_vars, m_scopes := sa.m_scopes } ∧
    gen_bin_expr s (NodeBinExpr.mult a b) = Except.ok
      { m_output := sa.m_output ++
          ["    pop rax\n", "    pop rbx\n", "    mul rbx\n", "    push rax\n"],
        m_stack_loc := sa.m_stack_loc - 1,
        m_vars := sa.m_vars, m_scopes := sa.m_scopes } ∧
    gen_bin_expr s (NodeBinExpr.div a b) = Except.ok
      { m_output := sa.m_output ++
          ["    pop rax\n", "    pop rbx\n", "    div rbx\n", "    push rax\n"],
        m_stack_loc := sa.m_stack_loc - 1,
        m_vars := sa.m_vars, m_scopes := sa.m_scopes } := by
  refine ⟨?_, ?_, ?_, ?_⟩ <;>
    simp only [gen_bin_expr, hb, except_ok_bind, ha, bin_tail_eq]

/-- Witness for `gen_bin_expr_emission_order` at `1 - 2`: the right operand
`2` is lowered first, then the left operand `1`, then the tail. -/
theorem gen_bin_expr_emission_order_witness :
    gen_bin_expr initState (NodeBinExpr.sub
        (NodeExpr.term (NodeTerm.intLit { type := TokenType.int_lit, value := some "1" }))
        (NodeExpr.term (NodeTerm.intLit { type := TokenType.int_lit, value := some "2" }))) =
      Except.ok
        { m_output := ["    mov rax, 2\n", "    push rax\n", "    mov rax, 1\n", "    push rax\n",
            "    pop rax\n", "    pop rbx\n", "    sub rax, rbx\n", "    push rax\n"],
          m_stack_loc := 1, m_vars := [], m_scopes := [] } :=
  (gen_bin_expr_emission_order initState
    { m_output := ["    mov rax, 2\n", "    push rax\n"], m_stack_loc := 1,
      m_vars := [], m_scopes := [] }
    { m_output := ["    mov rax, 2\n", "    push rax\n", "    mov rax, 1\n", "    push rax\n"],
      m_stack_loc := 2, m_vars := [], m_scopes := [] }
    (NodeExpr.term (NodeTerm.intLit { type := TokenType.int_lit, value := some "1" }))
    (NodeExpr.term (NodeTerm.intLit { type := TokenType.int_lit, value := some "2" }))
    rfl rfl).2.1

/-- C6: lowering an `Ident` term pushes exactly the memory operand
`QWORD [rsp + (D − d − 1)*8]` (with `D` the current stack depth and `d` the
variable's birth depth) when the name is found in the variable table, and
fails with the `Undeclared identifier` diagnostic when it is not; the
lookup fails exactly when no table entry carries the name. -/
theorem gen_term_ident_lookup (s : GenState) (tok : Token) (x : String)
    (hx : tok.value = some x) :
    (∀ var, s.m_vars.find? (fun v => v.name == x) = some var →
      gen_term s (NodeTerm.ident tok) = Except.ok
        { m_output := s.m_output ++
            ["    push " ++
              ("QWORD [rsp + " ++ toString ((s.m_stack_loc - var.stack_loc - 1) * 8) ++ "]\n") ++
              "\n"],
          m_stack_loc := s.m_stack_loc + 1,
          m_vars := s.m_vars, m_scopes := s.m_scopes }) ∧
    (s.m_vars.find? (fun v => v.name == x) = none →
      gen_term s (NodeTerm.ident tok) = Except.error ("Undeclared identifier: " ++ x)) ∧
    (s.m_vars.find? (fun v => v.name == x) = none ↔ ∀ var ∈ s.m_vars, var.name ≠ x) := by
  refine ⟨?_, ?_, ?_⟩
  · intro var hf
    simp only [gen_term, hx, hf, push]
  · intro hf
    simp only [gen_term, hx, hf]
  · rw [List.find?_eq_none]
    simp

/-- Witness for `gen_term_ident_lookup`: with one live variable `x` born at
depth 0 and current depth 1, the operand is `QWORD [rsp + 0]`; looking up
the undeclared `y` fails. -/
theorem gen_term_ident_lookup_witness :
    gen_term { m_output := [], m_stack_loc := 1,
               m_vars := [{ name := "x", stack_loc := 0 }], m_scopes := [] }
      (NodeTerm.ident { type := TokenType.ident, value := some "x" }) =
      Except.ok
        { m_output := ["    push QWORD [rsp + 0]\n\n"], m_stack_loc := 2,
          m_vars := [{ name := "x", stack_loc := 0 }], m_scopes := [] } ∧
    gen_term initState (NodeTerm.ident { type := TokenType.ident, value := some "y" }) =
      Except.error "Undeclared identifier: y" :=
  ⟨(gen_term_ident_lookup
      { m_output := [], m_stack_loc := 1,
        m_vars := [{ name := "x", stack_loc := 0 }], m_scopes := [] }
      { type := TokenType.ident, value := some "x" } "x" rfl).1
      { name := "x", stack_loc := 0 } rfl,
    (gen_term_ident_lookup initState
      { type := TokenType.ident, value := some "y" } "y" rfl).2.1 rfl⟩

/-- C7: lowering any statement preserves the invariant "stack-depth counter
= number of live variables", and a whole generator run therefore ends with
the counter equal to the live-variable count, in particular non-negative. -/
theorem gen_stmt_depth_invariant :
    (∀ s st s2, gen_stmt s st = Except.ok s2 →
      s.m_stack_loc = (s.m_vars.length : Int) →
      s2.m_stack_loc = (s2.m_vars.length : Int)) ∧
    (∀ prog s2, gen_prog prog = Except.ok s2 →
      s2.m_stack_loc = (s2.m_vars.length : Int) ∧ 0 ≤ s2.m_stack_loc) := by
  constructor
  · intro s st s2 h hinv
    exact (gen_stmt_frame s st s2 h hinv).1
  · intro prog s2 h
    simp only [gen_prog] at h
    obtain ⟨s1, h1, h⟩ := except_bind_ok h
    simp only [Except.ok.injEq] at h
    subst h
    have hinv0 : (emit initState "global _start\n_start:\n").m_stack_loc =
        (((emit initState "global _start\n_start:\n").m_vars.length : Nat) : Int) := by
      simp [emit, initState]
    obtain ⟨hd, -, -⟩ := gen_stmts_frame _ prog s1 h1 hinv0
    refine ⟨by simp [emit, hd], ?_⟩
    simp only [emit, hd]
    positivity

/-- Witness for `gen_stmt_depth_invariant`: lowering `exit(0);` from the
fresh state keeps counter = live-variable count (both zero). -/
theorem gen_stmt_depth_invariant_witness :
    gen_stmt initState
        (NodeStmt.exit (NodeExpr.term
          (NodeTerm.intLit { type := TokenType.int_lit, value := some "0" }))) =
      Except.ok
        { m_output := ["    mov rax, 0\n", "    push rax\n", "    mov rax, 60\n",
            "    pop rdi\n", "    syscall\n"],
          m_stack_loc := 0, m_vars := [], m_scopes := [] } ∧
    (0 : Int) = (([] : List Var).length : Int) :=
  ⟨rfl,
    gen_stmt_depth_invariant.1 initState
      (NodeStmt.exit (NodeExpr.term
        (NodeTerm.intLit { type := TokenType.int_lit, value := some "0" })))
      { m_output := ["    mov rax, 0\n", "    push rax\n", "    mov rax, 60\n",
          "    pop rdi\n", "    syscall\n"],
        m_stack_loc := 0, m_vars := [], m_scopes := [] }
      rfl rfl⟩

/-- C8: lowering a scope statement restores every piece of enclosing-scope
generator state: with `n = (table size after the body) − (size at entry)`,
it emits the body's output followed by `add rsp, n*8`, and the final
counter, variable table and boundary stack are exactly those of the entry
state — so outer variables keep their names and birth depths. -/
theorem gen_scope_frame_effect (s s1 : GenState) (stmts : List NodeStmt)
    (hinv : s.m_stack_loc = (s.m_vars.length : Int))
    (h : gen_stmts (begin_scope s) stmts = Except.ok s1) :
    gen_stmt s (NodeStmt.scope stmts) = Except.ok
      { m_output := s1.m_output ++
          ["    add rsp, " ++ toString ((s1.m_vars.length - s.m_vars.length) * 8) ++ "\n"],
        m_stack_loc := s.m_stack_loc,
        m_vars := s.m_vars,
        m_scopes := s.m_scopes } := by
  have hinv2 : (begin_scope s).m_stack_loc = ((begin_scope s).m_vars.length : Int) := by
    simpa [begin_scope] using hinv
  obtain ⟨hd1, hsc1, d, hvars1⟩ := gen_stmts_frame (begin_scope s) stmts s1 h hinv2
  have hscopes : s1.m_scopes = s.m_vars.length :: s.m_scopes := by
    simpa [begin_scope] using hsc1
  have hvars : s1.m_vars = s.m_vars ++ d := by simpa [begin_scope] using hvars1
  have hlen : s1.m_vars.length = s.m_vars.length + d.length := by simp [hvars]
  have htake : s1.m_vars.length - (s1.m_vars.length - s.m_vars.length) = s.m_vars.length := by
    omega
  have hfinalvars :
      s1.m_vars.take (s1.m_vars.length - (s1.m_vars.length - s.m_vars.length)) = s.m_vars := by
    rw [htake, hvars, List.take_left]
  simp only [gen_stmt, h, except_ok_bind]
  rw [end_scope_eq s1 s.m_vars.length s.m_scopes hscopes]
  rw [Except.ok.injEq, GenState.mk.injEq]
  refine ⟨rfl, by rw [hd1, hlen]; omega, hfinalvars, rfl⟩

/-- Witness for `gen_scope_frame_effect`: from a state holding the single
variable `x` (depth 1), lowering `{ def y = 3; }` emits the body and
`add rsp, 8`, and restores depth 1, the one-entry table and the empty
boundary stack. -/
theorem gen_scope_frame_effect_witness :
    gen_stmt
        { m_output := [], m_stack_loc := 1,
          m_vars := [{ name := "x", stack_loc := 0 }], m_scopes := [] }
        (NodeStmt.scope [NodeStmt.def_ { type := TokenType.ident, value := some "y" }
          (NodeExpr.term (NodeTerm.intLit { type := TokenType.int_lit, value := some "3" }))]) =
      Except.ok
        { m_output := ["    mov rax, 3\n", "    push rax\n", "    add rsp, 8\n"],
          m_stack_loc := 1,
          m_vars := [{ name := "x", stack_loc := 0 }], m_scopes := [] } :=
  gen_scope_frame_effect
    { m_output := [], m_stack_loc := 1,
      m_vars := [{ name := "x", stack_loc := 0 }], m_scopes := [] }
    { m_output := ["    mov rax, 3\n", "    push rax\n"], m_stack_loc := 2,
      m_vars := [{ name := "x", stack_loc := 0 }, { name := "y", stack_loc := 1 }],
      m_scopes := [1] }
    [NodeStmt.def_ { type := TokenType.ident, value := some "y" }
      (NodeExpr.term (NodeTerm.intLit { type := TokenType.int_lit, value := some "3" }))]
    rfl rfl

/-- C9: lowering `def x = e` fails with the `Identifier already used`
diagnostic exactly when some entry of the variable table — at any depth,
hence also one from an enclosing scope — carries the name `x`; otherwise
the entry `(x, current depth)` is appended first and `e` is lowered from
the extended state. -/
theorem gen_def_redeclaration (s : GenState) (tok : Token) (x : String) (e : NodeExpr)
    (hx : tok.value = some x) :
    ((∃ var ∈ s.m_vars, var.name = x) →
      gen_stmt s (NodeStmt.def_ tok e) =
        Except.error ("Identifier already used: " ++ x)) ∧
    ((∀ var ∈ s.m_vars, var.name ≠ x) →
      gen_stmt s (NodeStmt.def_ tok e) =
        gen_expr
          { s with m_vars := s.m_vars ++ [{ name := x, stack_loc := s.m_stack_loc }] } e) := by
  constructor
  · intro hex
    have hsome : (s.m_vars.find? (fun v => v.name == x)).isSome := by
      rw [List.find?_isSome]
      obtain ⟨var, hvm, hname⟩ := hex
      exact ⟨var, hvm, by simp [hname]⟩
    cases hf : s.m_vars.find? (fun v => v.name == x) with
    | none => rw [hf] at hsome; cases hsome
    | some var => simp only [gen_stmt, hx, hf]
  · intro hall
    have hf : s.m_vars.find? (fun v => v.name == x) = none := by
      rw [List.find?_eq_none]
      intro var hvm
      simp [hall var hvm]
    simp only [gen_stmt, hx, hf]

/-- Witness for `gen_def_redeclaration`: redeclaring `x` (even though its
entry was born in an enclosing scope, i.e. below the innermost boundary)
is rejected; declaring fresh `y` appends `(y, 1)` and proceeds to the
initializer. -/
theorem gen_def_redeclaration_witness :
    gen_stmt
        { m_output := [], m_stack_loc := 1,
          m_vars := [{ name := "x", stack_loc := 0 }], m_scopes := [1] }
        (NodeStmt.def_ { type := TokenType.ident, value := some "x" }
          (NodeExpr.term (NodeTerm.intLit { type := TokenType.int_lit, value := some "5" }))) =
      Except.error "Identifier already used: x" ∧
    gen_stmt
        { m_output := [], m_stack_loc := 1,
          m_vars := [{ name := "x", stack_loc := 0 }], m_scopes := [1] }
        (NodeStmt.def_ { type := TokenType.ident, value := some "y" }
          (NodeExpr.term (NodeTerm.intLit { type := TokenType.int_lit, value := some "5" }))) =
      gen_expr
        { m_output := [], m_stack_loc := 1,
          m_vars := [{ name := "x", stack_loc := 0 }, { name := "y", stack_loc := 1 }],
          m_scopes := [1] }
        (NodeExpr.term (NodeTerm.intLit { type := TokenType.int_lit, value := some "5" })) :=
  ⟨(gen_def_redeclaration
      { m_output := [], m_stack_loc := 1,
        m_vars := [{ name := "x", stack_loc := 0 }], m_scopes := [1] }
      { type := TokenType.ident, value := some "x" } "x"
      (NodeExpr.term (NodeTerm.intLit { type := TokenType.int_lit, value := some "5" }))
      rfl).1 ⟨{ name := "x", stack_loc := 0 }, by simp, rfl⟩,
    (gen_def_redeclaration
      { m_output := [], m_stack_loc := 1,
        m_vars := [{ name := "x", stack_loc := 0 }], m_scopes := [1] }
      { type := TokenType.ident, value := some "y" } "y"
      (NodeExpr.term (NodeTerm.intLit { type := TokenType.int_lit, value := some "5" }))
      rfl).2 (by simp)⟩

/-- C10: `def x = x;` is accepted by the generator: the table entry is
appended before the initializer is lowered, so the self-referential lookup
succeeds, and with birth depth `d = 0` equal to the current depth `D = 0`
the emitted operand is `QWORD [rsp + (D − d − 1)*8]` with
`D − d − 1 = −1`, i.e. `QWORD [rsp + -8]`, a read from below the current
stack top. -/
theorem gen_def_self_reference :
    gen_stmt initState
        (NodeStmt.def_ { type := TokenType.ident, value := some "x" }
          (NodeExpr.term (NodeTerm.ident { type := TokenType.ident, value := some "x" }))) =
      Except.ok
        { m_output := ["    push " ++
            ("QWORD [rsp + " ++ toString (((0 : Int) - 0 - 1) * 8) ++ "]\n") ++ "\n"],
          m_stack_loc := 1,
          m_vars := [{ name := "x", stack_loc := 0 }], m_scopes := [] } ∧
    "QWORD [rsp + " ++ toString (((0 : Int) - 0 - 1) * 8) ++ "]\n" =
      "QWORD [rsp + -8]\n" :=
  ⟨rfl, rfl⟩

end Generator
